import Mathlib

/-!
# Verification of the bazo-miner block-construction core

Shallow embedding of the transaction / block-assembly code of the
bazo-miner repository (files `miner/block.go`, the `protocol` sources for
`FundsTx` and `IotTx`, and the miner verification functions) together with
proofs about the embedded definitions.

Modelling conventions:
* 32-byte values (addresses, hashes, signatures, commitment keys) are
  modelled as `Nat`; equality of such values is equality of the model.
* Go `uint64`/`uint32` arithmetic is modelled on `Nat` with explicit
  `% 2^64` / `% 2^32` wrap-around (`add64`, `sub64`, `add32`).
* Maps (`storage.State`, `block.StateCopy`) are association lists with
  first-match lookup; inserting a fresh key appends at the end, and
  mutation through a map-stored pointer is an in-place update of the
  matching entries.
* Cryptographic primitives (SHA3, `SerializeHashContent`, Ed25519 and the
  smart-contract VM), which live outside this core, are abstract function
  parameters collected in the `Ctx` environment structure.
-/

/-- 2^64, the modulus of Go `uint64` arithmetic. -/
def U64 : Nat := 18446744073709551616

/-- 2^32, the modulus of Go `uint32` arithmetic. -/
def U32 : Nat := 4294967296

/-- Go `uint64` addition (wrapping). -/
def add64 (a b : Nat) : Nat := (a + b) % U64

/-- Go `uint64` subtraction (wrapping). -/
def sub64 (a b : Nat) : Nat := (a % U64 + (U64 - b % U64)) % U64

/-- Go `uint32` addition (wrapping). -/
def add32 (a b : Nat) : Nat := (a + b) % U32

/-- The `protocol.Account` structure (address, balance, txCnt, staking
flag, commitment key, optional contract code and contract variables).
The struct itself is declared in the protocol package; the fields are the
ones the embedded code reads and writes, following the specification's
data model (32-byte Ed25519 address, u64 balance, u32 txCnt, staking
flag, RSA commitment key, optional contract bytecode/storage). -/
structure Account where
  address : Nat
  balance : Nat
  txCnt : Nat
  isStaking : Bool
  commitmentKey : Nat
  contract : Option (List Nat)
  contractVariables : List Nat
  deriving Repr, DecidableEq

/-- A Go `map[[32]byte]*protocol.Account`, as an association list. -/
abbrev AccMap := List (Nat × Account)

/-- Map lookup (`m[k]` returning `nil` for a missing key): first match. -/
def lookupA : AccMap → Nat → Option Account
  | [], _ => none
  | (k', v) :: t, k => if k' = k then some v else lookupA t k

/-- Map write `m[k] = v`: replaces the value of every entry carrying key
`k`; a fresh key is appended at the end. -/
def setA : AccMap → Nat → Account → AccMap
  | [], k, v => [(k, v)]
  | (k', v') :: t, k, v => if k' = k then (k, v) :: t else (k', v') :: setA t k v

/-- Mutation through the pointer stored at key `k` (e.g.
`acc := m[k]; acc.Balance -= x`): updates every entry carrying key `k`. -/
def updA (m : AccMap) (k : Nat) (f : Account → Account) : AccMap :=
  m.map (fun p => if p.1 = k then (p.1, f p.2) else p)

/-- The `protocol.FundsTx` struct (`fundstx.go`): Header, Amount, Fee,
TxCnt, From, To, Sig, Aggregated, Data. `fromA`/`toA` stand for the Go
fields `From`/`To` (`from` is reserved in Lean). `data = none` is a nil
Go slice, `some l` a non-nil slice. -/
structure FundsTx where
  header : Nat
  amount : Nat
  fee : Nat
  txCnt : Nat
  fromA : Nat
  toA : Nat
  sig : Nat
  aggregated : Bool
  data : Option (List Nat)
  deriving Repr, DecidableEq

/-- The `protocol.IotTx` struct (`iottx.go`): Header, TxCnt, From, To,
Sig, Data, Fee. -/
structure IotTx where
  header : Nat
  txCnt : Nat
  fromA : Nat
  toA : Nat
  sig : Nat
  data : Option (List Nat)
  fee : Nat
  deriving Repr, DecidableEq

/-- The `protocol.StakeTx` struct, with the fields the embedded code
uses: Fee, IsStaking, Account, CommitmentKey, Sig. -/
structure StakeTx where
  fee : Nat
  isStaking : Bool
  account : Nat
  commitmentKey : Nat
  sig : Nat
  deriving Repr, DecidableEq

/-- The `protocol.AccTx` struct, with the fields the embedded code uses:
Header, Fee, PubKey, Sig. -/
structure AccTx where
  header : Nat
  fee : Nat
  pubKey : Nat
  sig : Nat
  deriving Repr, DecidableEq

/-- The `protocol.ConfigTx` struct, with the fields the embedded code
uses: Id, Payload, Fee, Sig. -/
structure ConfigTx where
  id : Nat
  payload : Nat
  fee : Nat
  sig : Nat
  deriving Repr, DecidableEq

/-- The `protocol.AggTx` struct built by `protocol.ConstrAggTx(amount,
fee, transactionSenders, transactionReceivers, transactionHashes)`:
summed amount, fee, sender list (`From`), receiver list (`To`) and the
member funds-tx hashes (`AggregatedTxSlice`). -/
structure AggTx where
  amount : Nat
  fee : Nat
  fromList : List Nat
  toList : List Nat
  aggregatedTxSlice : List Nat
  deriving Repr, DecidableEq

/-- The `protocol.Transaction` interface, restricted to the variants the
`addTx` switch dispatches on (plus `AggTx`, which falls to the default
branch of the switch). -/
inductive Tx where
  | acc (t : AccTx)
  | funds (t : FundsTx)
  | config (t : ConfigTx)
  | stake (t : StakeTx)
  | agg (t : AggTx)
  | iot (t : IotTx)
  deriving Repr, DecidableEq

/-- `tx.TxFee()`: every variant returns its Fee field. -/
def Tx.txFee : Tx → Nat
  | .acc t => t.fee
  | .funds t => t.fee
  | .config t => t.fee
  | .stake t => t.fee
  | .agg t => t.fee
  | .iot t => t.fee

/-- The field tuple hashed by `FundsTx.Hash()` (`fundstx.go` lines
53-78): Header, Amount, Fee, TxCnt, From, To, Data — the signature and
the aggregated flag are excluded. -/
structure FundsTxHashData where
  header : Nat
  amount : Nat
  fee : Nat
  txCnt : Nat
  fromA : Nat
  toA : Nat
  data : Option (List Nat)
  deriving Repr, DecidableEq

/-- The hashed field tuple of a `FundsTx`. -/
def FundsTx.hashData (tx : FundsTx) : FundsTxHashData :=
  ⟨tx.header, tx.amount, tx.fee, tx.txCnt, tx.fromA, tx.toA, tx.data⟩

/-- The field tuple hashed by `IotTx.Hash()` (`iottx.go` lines 44-54), in
buffer order: To, From, TxCnt, TxFee(), Header, Data — the signature is
excluded. -/
structure IotTxHashData where
  toA : Nat
  fromA : Nat
  txCnt : Nat
  fee : Nat
  header : Nat
  data : Option (List Nat)
  deriving Repr, DecidableEq

/-- The hashed field tuple of an `IotTx`. -/
def IotTx.hashData (tx : IotTx) : IotTxHashData :=
  ⟨tx.toA, tx.fromA, tx.txCnt, tx.fee, tx.header, tx.data⟩

/-- The tunable parameters of `activeParameters` used by the embedded
code: `Fee_minimum` and `Staking_minimum`. -/
structure Params where
  feeMinimum : Nat
  stakingMinimum : Nat
  deriving Repr, DecidableEq

/-- The ambient environment of the miner code: the global account state
(`storage.State`), the root-key registry (`storage.IsRootKey` and the
`storage.RootKeys` addresses), the active parameters, the constants
`MAX_MONEY` and `FEE_MINIMUM`, and the external cryptographic and VM
primitives as abstract functions:
`hashContent` is `protocol.SerializeHashContent` on an address,
`hashContentIoT` is `protocol.SerializeHashContentIoT`,
`serializeHashFunds` is `protocol.SerializeHashContent` on the hashed
field tuple of a funds tx (so `FundsTx.Hash`), `sha3Iot` is the SHA3-256
of the `IotTx.Hash` buffer, `sha3Pub` the SHA3-256 of a public key,
`stakeTxHash`/`accTxHash`/`configTxHash`/`aggTxHash` the `Hash()` methods
of the remaining variants, `edVerify pub msg sig` is `ed25519.Verify`,
and `vmExec acc tx` is the success of `vm.NewVM(ctx).Exec(false)` on the
receiver account's contract. -/
structure Ctx where
  state : AccMap
  rootAddrs : Nat → Bool
  rootKeys : List Nat
  params : Params
  maxMoney : Nat
  feeMinimumConst : Nat
  hashContent : Nat → Nat
  hashContentIoT : Nat → Nat
  serializeHashFunds : FundsTxHashData → Nat
  sha3Iot : IotTxHashData → Nat
  sha3Pub : Nat → Nat
  stakeTxHash : StakeTx → Nat
  accTxHash : AccTx → Nat
  configTxHash : ConfigTx → Nat
  aggTxHash : AggTx → Nat
  edVerify : Nat → Nat → Nat → Bool
  vmExec : Account → FundsTx → Bool

/-- `FundsTx.Hash()`. -/
def fundsTxHashVal (ctx : Ctx) (tx : FundsTx) : Nat :=
  ctx.serializeHashFunds tx.hashData

/-- `IotTx.Hash()`. -/
def iotTxHashVal (ctx : Ctx) (tx : IotTx) : Nat :=
  ctx.sha3Iot tx.hashData

/-- The subset of `protocol.Block` the embedded code touches: the local
state overlay `StateCopy` and the six per-category transaction-hash
sequences. -/
structure Block where
  stateCopy : AccMap
  accTxData : List Nat
  fundsTxData : List Nat
  configTxData : List Nat
  stakeTxData : List Nat
  aggTxData : List Nat
  ioTTxData : List Nat
  deriving Repr, DecidableEq

/-- `newBlock` as far as the embedded fields go: an empty overlay and
empty hash sequences. -/
def newBlock : Block := ⟨[], [], [], [], [], [], []⟩

/-- Result of an `add...Tx` call. `ok`/`err` carry the block as it stands
when the function returns (the Go code mutates the block in place, so an
error return can leave a partially touched overlay behind). `panic` is a
nil-pointer dereference of a missing `StateCopy` entry, which in Go
crashes instead of returning. -/
inductive AddResult where
  | ok (b : Block)
  | err (b : Block)
  | panic
  deriving Repr, DecidableEq

/-- The copy-on-read of an account into the block's `StateCopy`,
shared verbatim by `addFundsTx` (block.go 253-278), `addIoTTx` (200-225)
and `addStakeTx` (555-566): if the key is already in the overlay nothing
happens; otherwise, if the key is in the global state and the recomputed
`SerializeHashContent` of the stored account's address equals the key, a
copy is inserted; if the hash differs the insert is silently skipped
(leaving the overlay without the entry); if the key is absent from the
global state the enclosing add fails (`none`). -/
def touchAccount (ctx : Ctx) (b : Block) (a : Nat) : Option Block :=
  match lookupA b.stateCopy a with
  | some _ => some b
  | none =>
    match lookupA ctx.state a with
    | some acc =>
      if ctx.hashContent acc.address = a then
        some { b with stateCopy := setA b.stateCopy a acc }
      else
        some b
    | none => none

/-- The sender-pointer mutation of `addFundsTx` (block.go 317-319):
`accSender.TxCnt += 1; accSender.Balance -= tx.Amount`. -/
def fundsSenderUpd (tx : FundsTx) (a : Account) : Account :=
  { a with txCnt := add32 a.txCnt 1, balance := sub64 a.balance tx.amount }

/-- The receiver-pointer mutation of `addFundsTx` (block.go 321-322):
`accReceiver.Balance += tx.Amount`. -/
def fundsReceiverUpd (tx : FundsTx) (a : Account) : Account :=
  { a with balance := add64 a.balance tx.amount }

/-- The sender-pointer mutation of `addIoTTx` (block.go 239-242):
`accSender.TxCnt += 1; accSender.Balance -= tx.Fee`. -/
def iotSenderUpd (tx : IotTx) (a : Account) : Account :=
  { a with txCnt := add32 a.txCnt 1, balance := sub64 a.balance tx.fee }

/-- The account-pointer mutation of `addStakeTx` (block.go 582-584):
`accSender.IsStaking = tx.IsStaking; accSender.CommitmentKey = tx.CommitmentKey`. -/
def stakeAccountUpd (tx : StakeTx) (a : Account) : Account :=
  { a with isStaking := tx.isStaking, commitmentKey := tx.commitmentKey }

/-- `addFundsTx` (block.go 250-334). Touch sender and receiver; a
non-root sender needs `Amount + Fee ≤ Balance` (uint64 addition); the
txCnt-mismatch check of lines 288-294 is disabled in the source (its
error return is commented out), so it has no effect; the receiver
overflow check compares the wrapped uint64 sum against `MAX_MONEY`; if
the tx has data and the receiver a contract the VM runs and its failure
aborts; then the sender pointer gets `TxCnt += 1` and
`Balance -= Amount`, the receiver pointer `Balance += Amount`, and the
tx hash is appended to `FundsTxData`. Dereferencing an overlay entry the
silent-skip branch of the touch left missing is a nil-pointer `panic`. -/
def addFundsTx (ctx : Ctx) (b : Block) (tx : FundsTx) : AddResult :=
  match touchAccount ctx b tx.fromA with
  | none => .err b
  | some b1 =>
  match touchAccount ctx b1 tx.toA with
  | none => .err b1
  | some b2 =>
  match lookupA b2.stateCopy tx.fromA with
  | none => .panic
  | some accFrom =>
  if ctx.rootAddrs tx.fromA = false ∧ add64 tx.amount tx.fee > accFrom.balance then
    .err b2
  else
  -- block.go 288-294: `if b.StateCopy[tx.From].TxCnt != tx.TxCnt {}` — body commented out
  match lookupA b2.stateCopy tx.toA with
  | none => .panic
  | some accTo =>
  if add64 accTo.balance tx.amount > ctx.maxMoney then
    .err b2
  else
  if tx.data.isSome ∧ accTo.contract.isSome ∧ ctx.vmExec accTo tx = false then
    .err b2
  else
  -- vm.PersistChanges operates on the context's account copy (external VM state)
  .ok { b2 with stateCopy := updA (updA b2.stateCopy tx.fromA (fundsSenderUpd tx)) tx.toA (fundsReceiverUpd tx), fundsTxData := b2.fundsTxData ++ [fundsTxHashVal ctx tx] }

/-- `addIoTTx` (block.go 199-247). Touch sender and receiver; the
insufficient-fee check of lines 227-233 only prints (its error return is
commented out) and the txCnt check of lines 234-238 has an empty body,
so neither aborts; then the sender pointer gets `TxCnt += 1` and
`Balance -= Fee` (wrapping uint64 subtraction) and the tx hash is
appended to `IoTTxData`. The receiver account is never modified. -/
def addIoTTx (ctx : Ctx) (b : Block) (tx : IotTx) : AddResult :=
  match touchAccount ctx b tx.fromA with
  | none => .err b
  | some b1 =>
  match touchAccount ctx b1 tx.toA with
  | none => .err b1
  | some b2 =>
  match lookupA b2.stateCopy tx.fromA with
  | none => .panic
  | some _ =>
  .ok { b2 with stateCopy := updA b2.stateCopy tx.fromA (iotSenderUpd tx), ioTTxData := b2.ioTTxData ++ [iotTxHashVal ctx tx] }

/-- `addStakeTx` (block.go 552-590). Touch the staking account; a
non-root account (root test on `SerializeHashContent(tx.Account)`) is
rejected when `Fee + Staking_minimum >= Balance` (so the balance must be
strictly greater than `Fee + Staking_minimum`); rejected when the
staking flag already equals the requested value; otherwise the account
pointer gets the new flag and commitment key and the tx hash is appended
to `StakeTxData`. -/
def addStakeTx (ctx : Ctx) (b : Block) (tx : StakeTx) : AddResult :=
  match touchAccount ctx b tx.account with
  | none => .err b
  | some b1 =>
  match lookupA b1.stateCopy tx.account with
  | none => .panic
  | some acc =>
  if ctx.rootAddrs (ctx.hashContent tx.account) = false ∧
      add64 tx.fee ctx.params.stakingMinimum ≥ acc.balance then
    .err b1
  else
  if acc.isStaking = tx.isStaking then
    .err b1
  else
  .ok { b1 with stateCopy := updA b1.stateCopy tx.account (stakeAccountUpd tx), stakeTxData := b1.stakeTxData ++ [ctx.stakeTxHash tx] }

/-- `addAccTx` (block.go 183-197): unless the removal bit (0x02) is set
in the header, reject when `sha3(PubKey)` is already a key of the global
state; otherwise append the tx hash to `AccTxData`. -/
def addAccTx (ctx : Ctx) (b : Block) (tx : AccTx) : AddResult :=
  if tx.header &&& 2 ≠ 2 ∧ (lookupA ctx.state (ctx.sha3Pub tx.pubKey)).isSome then
    .err b
  else
    .ok { b with accTxData := b.accTxData ++ [ctx.accTxHash tx] }

/-- `addConfigTx` (block.go 545-550): append the tx hash; never fails. -/
def addConfigTx (ctx : Ctx) (b : Block) (tx : ConfigTx) : AddResult :=
  .ok { b with configTxData := b.configTxData ++ [ctx.configTxHash tx] }

/-- `verifyFundsTx` (verification.go 320-354). Reject a zero amount or an
amount above `MAX_MONEY`; reject when sender or receiver is absent from
the global state; otherwise the tx hash is computed over the original
fields, the `From`/`To` fields are overwritten in place with the
recomputed address hashes, and the result is
`ed25519.Verify(accFrom.Address, txHash, Sig) && tx.From != tx.To`.
Returns the verdict together with the (possibly mutated) transaction. -/
def verifyFundsTx (ctx : Ctx) (tx : FundsTx) : Bool × FundsTx :=
  if tx.amount = 0 ∨ tx.amount > ctx.maxMoney then
    (false, tx)
  else
    match lookupA ctx.state tx.fromA, lookupA ctx.state tx.toA with
    | some accFrom, some accTo =>
      let accFromHash := ctx.hashContent accFrom.address
      let accToHash := ctx.hashContent accTo.address
      let txHash := fundsTxHashVal ctx tx
      let tx2 := { tx with fromA := accFromHash, toA := accToHash }
      (ctx.edVerify accFrom.address txHash tx.sig && decide (tx2.fromA ≠ tx2.toA), tx2)
    | _, _ => (false, tx)

/-- `verifyIotTx` (verification.go 199-232). Reject when either account
is absent; otherwise `From`/`To` are overwritten with the
`SerializeHashContentIoT` hashes, the tx hash is computed over the
mutated fields, and on `ed25519.Verify(accFrom.Address, txHash, Sig) &&
tx.From != tx.To` the fields are overwritten once more with the plain
`SerializeHashContent` hashes and the tx verifies. -/
def verifyIotTx (ctx : Ctx) (tx : IotTx) : Bool × IotTx :=
  match lookupA ctx.state tx.fromA, lookupA ctx.state tx.toA with
  | some accFrom, some accTo =>
    let tx2 := { tx with fromA := ctx.hashContentIoT accFrom.address,
                         toA := ctx.hashContentIoT accTo.address }
    let txHash := iotTxHashVal ctx tx2
    if ctx.edVerify accFrom.address txHash tx2.sig ∧ tx2.fromA ≠ tx2.toA then
      (true, { tx2 with fromA := ctx.hashContent accFrom.address,
                        toA := ctx.hashContent accTo.address })
    else
      (false, tx2)
  | _, _ => (false, tx)

/-- `verifyAccTx` (verification.go 234-251): accept when some registered
root key verifies the signature over the tx hash. -/
def verifyAccTx (ctx : Ctx) (tx : AccTx) : Bool :=
  ctx.rootKeys.any (fun addr => ctx.edVerify addr (ctx.accTxHash tx) tx.sig)

/-- `verifyConfigTx` (verification.go 253-273): accept when some
registered root key verifies the signature over the tx hash. -/
def verifyConfigTx (ctx : Ctx) (tx : ConfigTx) : Bool :=
  ctx.rootKeys.any (fun addr => ctx.edVerify addr (ctx.configTxHash tx) tx.sig)

/-- `verifyAggTx` (verification.go 304-318): a non-nil aggregate tx
always verifies (authenticity derives from its members). -/
def verifyAggTx (_ : AggTx) : Bool := true

/-- Modelled from the spec: `protocol.NewAccount(tx.Account, [32]byte{},
0, false, [crypto.COMM_KEY_LENGTH]byte{}, nil, nil)` — the constructor
body lives in the protocol package outside the provided sources; per the
specification's account model it yields an account with the given
address, zero balance, zero txCnt, staking flag off, empty commitment
key and no contract. -/
def newAccount (a : Nat) : Account :=
  { address := a, balance := 0, txCnt := 0, isStaking := false,
    commitmentKey := 0, contract := none, contractVariables := [] }

/-- Result of `verifyStakeTx`: the verdict, the global state as left
behind (the function can write a fresh account into it), and the
mutated transaction. -/
structure StakeVerifyOut where
  verified : Bool
  state : AccMap
  tx : StakeTx
  deriving Repr

/-- `verifyStakeTx` (verification.go 275-302). When the staking account
is absent from the global state a fresh account is created and written
into the global state (`storage.WriteAccount`, modelled from the spec as
storing the account under its address key); then `tx.Account` is
overwritten in place with the recomputed address hash, the tx hash is
computed over the mutated transaction, and the verdict is
`ed25519.Verify(acc.Address, txHash, Sig)`. The state write happens
whether or not the signature verifies. -/
def verifyStakeTx (ctx : Ctx) (tx : StakeTx) : StakeVerifyOut :=
  let accAndState : Account × AccMap :=
    match lookupA ctx.state tx.account with
    | some acc => (acc, ctx.state)
    | none =>
      let acc := newAccount tx.account
      (acc, setA ctx.state acc.address acc)
  let acc := accAndState.1
  let tx2 := { tx with account := ctx.hashContent acc.address }
  let txHash := ctx.stakeTxHash tx2
  ⟨ctx.edVerify acc.address txHash tx2.sig, accAndState.2, tx2⟩

/-- `addTx` (block.go 123-181): the static fee check against
`Fee_minimum`, then `verify` (which dispatches on the variant and may
mutate the transaction and, for a stake tx, the global state), then the
category-specific add on the possibly mutated transaction. An `AggTx`
falls through to the default branch of the switch and is rejected as an
unrecognized type. -/
def addTx (ctx : Ctx) (b : Block) (tx : Tx) : AddResult :=
  if tx.txFee < ctx.params.feeMinimum then .err b
  else
    match tx with
    | .acc t => if verifyAccTx ctx t then addAccTx ctx b t else .err b
    | .funds t =>
      match verifyFundsTx ctx t with
      | (true, t2) => addFundsTx ctx b t2
      | (false, _) => .err b
    | .config t => if verifyConfigTx ctx t then addConfigTx ctx b t else .err b
    | .stake t =>
      match verifyStakeTx ctx t with
      | ⟨true, st2, t2⟩ => addStakeTx { ctx with state := st2 } b t2
      | ⟨false, _, _⟩ => .err b
    | .agg t => if verifyAggTx t then .err b else .err b
    | .iot t =>
      match verifyIotTx ctx t with
      | (true, t2) => addIoTTx ctx b t2
      | (false, _) => .err b

/-- Gob-stream normalization of a byte-slice field: `encoding/gob` omits
fields holding their zero value (a nil or empty slice) from the stream,
and the decoder leaves an omitted field at its zero value (nil), so an
empty non-nil slice comes back as nil. -/
def gobSlice : Option (List Nat) → Option (List Nat)
  | some [] => none
  | d => d

/-- The struct value a `FundsTx.Encode()` gob stream determines
(`fundstx.go` 82-97): the struct literal written to the encoder lists
Header, Amount, Fee, TxCnt, From, To, Sig and Data — the `Aggregated`
flag is not part of the literal, so it is transmitted as its zero value.
Gob is injective on this field tuple, so the wire bytes are modelled by
the tuple itself. -/
structure FundsTxWire where
  header : Nat
  amount : Nat
  fee : Nat
  txCnt : Nat
  fromA : Nat
  toA : Nat
  sig : Nat
  data : Option (List Nat)
  deriving Repr, DecidableEq

/-- `FundsTx.Encode()`. -/
def FundsTx.encode (tx : FundsTx) : FundsTxWire :=
  { header := tx.header, amount := tx.amount, fee := tx.fee, txCnt := tx.txCnt,
    fromA := tx.fromA, toA := tx.toA, sig := tx.sig, data := gobSlice tx.data }

/-- `FundsTx.Decode()` (`fundstx.go` 99-105): gob-decode into a zero
`FundsTx`; every field absent from the stream keeps its zero value, in
particular `Aggregated` is always `false`. -/
def FundsTx.decode (w : FundsTxWire) : FundsTx :=
  { header := w.header, amount := w.amount, fee := w.fee, txCnt := w.txCnt,
    fromA := w.fromA, toA := w.toA, sig := w.sig, aggregated := false, data := w.data }

/-- The struct value an `IotTx.Encode()` gob stream determines
(`iottx.go` 58-78): all seven fields (Header, TxCnt, From, To, Sig,
Data, Fee) appear in the encoded struct literal. -/
structure IotTxWire where
  header : Nat
  txCnt : Nat
  fromA : Nat
  toA : Nat
  sig : Nat
  data : Option (List Nat)
  fee : Nat
  deriving Repr, DecidableEq

/-- `IotTx.Encode()`. -/
def IotTx.encode (tx : IotTx) : IotTxWire :=
  { header := tx.header, txCnt := tx.txCnt, fromA := tx.fromA, toA := tx.toA,
    sig := tx.sig, data := gobSlice tx.data, fee := tx.fee }

/-- `IotTx.Decode()` (`iottx.go` 80-86). -/
def IotTx.decode (w : IotTxWire) : IotTx :=
  { header := w.header, txCnt := w.txCnt, fromA := w.fromA, toA := w.toA,
    sig := w.sig, data := w.data, fee := w.fee }

/-- Result of `AggregateFundsTransactions` (block.go 416-483):
`aggregated` — an `AggTx` was constructed and its hash appended to the
block's `AggTxData`; `singleFunds` — a singleton input is emitted as an
ordinary funds tx (`addFundsTxFinal`); `nullPtrErr` — the empty input
returns the `NullPointer` error. -/
inductive AggregateResult where
  | aggregated (tx : AggTx) (b : Block)
  | singleFunds (b : Block)
  | nullPtrErr (b : Block)
  deriving Repr, DecidableEq

/-- `AggregateFundsTransactions` (block.go 416-483). For two or more
transactions: sum the amounts (uint64), collect the sender, receiver and
hash slices in order, and record each distinct sender/receiver as a key
of `nrOfSender`/`nrOfReceivers` (the assignment
`nrOfSender[tx.From] = nrOfSender[tx.From]` inserts the key, leaving the
count untouched, so `len` counts distinct addresses). If there are
strictly fewer distinct senders than distinct receivers the sender slice
is truncated to its first element; if strictly more, the receiver slice
is; with equal counts neither slice is touched. The `AggTx` is built
from the resulting slices with fee `FEE_MINIMUM` (marking the member txs
aggregated and writing open storage are external effects not modelled
here). -/
def aggregateFundsTransactions (ctx : Ctx) (txs : List FundsTx) (b : Block) :
    AggregateResult :=
  match txs with
  | _ :: _ :: _ =>
    let amount := txs.foldl (fun a t => add64 a t.amount) 0
    let transactionSenders := txs.map (fun t => t.fromA)
    let transactionReceivers := txs.map (fun t => t.toA)
    let transactionHashes := txs.map (fun t => fundsTxHashVal ctx t)
    let nrOfSenderKeys := transactionSenders.dedup
    let nrOfReceiverKeys := transactionReceivers.dedup
    let senders2 :=
      if nrOfSenderKeys.length < nrOfReceiverKeys.length then
        transactionSenders.take 1
      else transactionSenders
    let receivers2 :=
      if nrOfReceiverKeys.length < nrOfSenderKeys.length then
        transactionReceivers.take 1
      else transactionReceivers
    let aggTx : AggTx :=
      { amount := amount, fee := ctx.feeMinimumConst, fromList := senders2,
        toList := receivers2, aggregatedTxSlice := transactionHashes }
    .aggregated aggTx { b with aggTxData := b.aggTxData ++ [ctx.aggTxHash aggTx] }
  | [t1] =>
    .singleFunds { b with fundsTxData := b.fundsTxData ++ [fundsTxHashVal ctx t1] }
  | [] => .nullPtrErr b

/-- Environment of the network branch of the AggTx fetch: whether the
peer response to the n-th request arrives before `TXFETCH_TIMEOUT`, the
transaction it delivers, and the `AggTx.Hash()` function. -/
structure AggFetchEnv where
  arrives : Nat → Bool
  responses : Nat → AggTx
  hashA : AggTx → Nat

/-- Outcome of the network branch of the AggTx fetch for one requested
hash: `accepted tx` — `tx` is stored into `aggTxSlice` and this branch
puts no error on the error channel; `fetchTimeout` — the timeout error
is sent and the fetch aborts. -/
inductive AggFetchOutcome where
  | accepted (tx : AggTx)
  | fetchTimeout
  deriving Repr, DecidableEq

/-- The network branch of `fetchAggTxData` (block.go 878-921) for a hash
that is in neither closed nor open storage. `cnt` starts at 0 and is
incremented at the `here:` label, so the n-th receive happens with
`cnt = n`; the `goto here` re-enters the loop only while the received
hash mismatches and `cnt < 2`, which permits exactly one retry (two
receives in total); the `errChan` send directly after the `goto` is
unreachable, so once the loop exits the last received transaction is
stored into `aggTxSlice` whether or not its hash matches the request.
The definition is that loop unrolled at its static bound. -/
def fetchAggTxNet (env : AggFetchEnv) (txHash : Nat) : AggFetchOutcome :=
  if env.arrives 1 = false then .fetchTimeout
  else
    let first := env.responses 1
    if env.hashA first ≠ txHash then
      if env.arrives 2 = false then .fetchTimeout
      else .accepted (env.responses 2)
    else .accepted first

/-- A convenient concrete environment for evaluating the embedded code:
identity-like hash functions, a signature check that accepts everything,
and a VM that always succeeds; `MAX_MONEY` is instantiated with the
repository's value 2^63 - 1. -/
def exampleCtx (st : AccMap) (roots : List Nat) (feeMin stakeMin : Nat) : Ctx :=
  { state := st, rootAddrs := fun a => roots.contains a, rootKeys := roots,
    params := { feeMinimum := feeMin, stakingMinimum := stakeMin },
    maxMoney := 9223372036854775807, feeMinimumConst := 1,
    hashContent := fun a => a, hashContentIoT := fun a => a,
    serializeHashFunds := fun d => d.txCnt, sha3Iot := fun d => d.txCnt,
    sha3Pub := fun a => a, stakeTxHash := fun t => t.account,
    accTxHash := fun t => t.pubKey, configTxHash := fun t => t.id,
    aggTxHash := fun t => t.amount, edVerify := fun _ _ _ => true,
    vmExec := fun _ _ => true }

/-- A plain account with the given address, balance and txCnt. -/
def acctEx (addr bal cnt : Nat) (stk : Bool) : Account :=
  { address := addr, balance := bal, txCnt := cnt, isStaking := stk,
    commitmentKey := 0, contract := none, contractVariables := [] }

theorem lookupA_append_of_some {m : AccMap} {k : Nat} {v : Account} (e : AccMap)
    (h : lookupA m k = some v) : lookupA (m ++ e) k = some v := by
  induction m with
  | nil => simp [lookupA] at h
  | cons p t ih =>
    obtain ⟨k', v'⟩ := p
    by_cases hk : k' = k
    · simp [lookupA, hk] at h ⊢
      exact h
    · simp [lookupA, hk] at h ⊢
      exact ih h

theorem setA_eq_append {m : AccMap} {k : Nat} (v : Account)
    (h : lookupA m k = none) : setA m k v = m ++ [(k, v)] := by
  induction m with
  | nil => simp [setA]
  | cons p t ih =>
    obtain ⟨k', v'⟩ := p
    by_cases hk : k' = k
    · simp [lookupA, hk] at h
    · simp [lookupA, hk] at h
      simp [setA, hk, ih h]

theorem lookupA_setA_self (m : AccMap) (k : Nat) (v : Account) :
    lookupA (setA m k v) k = some v := by
  induction m with
  | nil => simp [setA, lookupA]
  | cons p t ih =>
    obtain ⟨k', v'⟩ := p
    by_cases hk : k' = k
    · simp [setA, hk, lookupA]
    · simp [setA, hk, lookupA, ih]

theorem updA_cons (k1 : Nat) (v1 : Account) (t : AccMap) (k : Nat)
    (f : Account → Account) :
    updA ((k1, v1) :: t) k f =
      (if k1 = k then (k1, f v1) else (k1, v1)) :: updA t k f := rfl

theorem lookupA_cons (k1 : Nat) (v1 : Account) (t : AccMap) (k : Nat) :
    lookupA ((k1, v1) :: t) k = if k1 = k then some v1 else lookupA t k := rfl

theorem lookupA_updA_self (m : AccMap) (k : Nat) (f : Account → Account) :
    lookupA (updA m k f) k = (lookupA m k).map f := by
  induction m with
  | nil => rfl
  | cons p t ih =>
    obtain ⟨k', v'⟩ := p
    rw [updA_cons]
    by_cases hk : k' = k
    · rw [if_pos hk, lookupA_cons, lookupA_cons, if_pos hk, if_pos hk]
      rfl
    · rw [if_neg hk, lookupA_cons, lookupA_cons, if_neg hk, if_neg hk]
      exact ih

theorem lookupA_updA_ne (m : AccMap) {k k' : Nat} (f : Account → Account)
    (h : k' ≠ k) : lookupA (updA m k f) k' = lookupA m k' := by
  induction m with
  | nil => rfl
  | cons p t ih =>
    obtain ⟨k1, v1⟩ := p
    rw [updA_cons]
    by_cases hk : k1 = k
    · have h2 : ¬ (k1 = k') := fun hc => h (hc ▸ hk)
      rw [if_pos hk, lookupA_cons, lookupA_cons, if_neg h2, if_neg h2]
      exact ih
    · by_cases hk' : k1 = k'
      · rw [if_neg hk, lookupA_cons, lookupA_cons, if_pos hk', if_pos hk']
      · rw [if_neg hk, lookupA_cons, lookupA_cons, if_neg hk', if_neg hk']
        exact ih

/-- The per-category hash sequences of `b2` equal those of `b`. -/
def seqEq (b b2 : Block) : Prop :=
  b2.accTxData = b.accTxData ∧ b2.fundsTxData = b.fundsTxData ∧
  b2.configTxData = b.configTxData ∧ b2.stakeTxData = b.stakeTxData ∧
  b2.aggTxData = b.aggTxData ∧ b2.ioTTxData = b.ioTTxData

/-- The overlay of `b2` is that of `b`, possibly extended at the end by
fresh copy-on-read entries. -/
def overlayExtends (b b2 : Block) : Prop :=
  ∃ ext, b2.stateCopy = b.stateCopy ++ ext

/-- The error-path frame condition: sequences untouched, overlay only
extended. -/
def frameOk (b b2 : Block) : Prop := seqEq b b2 ∧ overlayExtends b b2

theorem frameOk_refl (b : Block) : frameOk b b :=
  ⟨⟨rfl, rfl, rfl, rfl, rfl, rfl⟩, ⟨[], by simp⟩⟩

theorem frameOk_trans {b b1 b2 : Block} (h1 : frameOk b b1) (h2 : frameOk b1 b2) :
    frameOk b b2 := by
  obtain ⟨⟨s1, s2, s3, s4, s5, s6⟩, e1, he1⟩ := h1
  obtain ⟨⟨t1, t2, t3, t4, t5, t6⟩, e2, he2⟩ := h2
  refine ⟨⟨?_, ?_, ?_, ?_, ?_, ?_⟩, e1 ++ e2, ?_⟩ <;>
    simp_all [List.append_assoc]

theorem touchAccount_frame {ctx : Ctx} {b : Block} {a : Nat} {b1 : Block}
    (h : touchAccount ctx b a = some b1) : frameOk b b1 := by
  unfold touchAccount at h
  split at h
  · cases h
    exact frameOk_refl b
  · rename_i hmiss
    split at h
    · rename_i acc hacc
      split at h
      · rename_i hhash
        cases h
        exact ⟨⟨rfl, rfl, rfl, rfl, rfl, rfl⟩, [(a, acc)], setA_eq_append acc hmiss⟩
      · cases h
        exact frameOk_refl b
    · cases h

/-- When the account is already in the overlay, the touch is a no-op. -/
theorem touchAccount_of_some {ctx : Ctx} {b : Block} {a : Nat} {acc : Account}
    (h : lookupA b.stateCopy a = some acc) : touchAccount ctx b a = some b := by
  unfold touchAccount
  rw [h]

theorem addFundsTx_err_frame {ctx : Ctx} {b : Block} {tx : FundsTx} {b' : Block}
    (h : addFundsTx ctx b tx = .err b') : frameOk b b' := by
  unfold addFundsTx at h
  split at h
  · cases h
    exact frameOk_refl b
  · rename_i b1 h1
    split at h
    · cases h
      exact touchAccount_frame h1
    · rename_i b2 h2
      split at h
      · cases h
      · rename_i accFrom h3
        split at h
        · cases h
          exact frameOk_trans (touchAccount_frame h1) (touchAccount_frame h2)
        · split at h
          · cases h
          · rename_i accTo h4
            split at h
            · cases h
              exact frameOk_trans (touchAccount_frame h1) (touchAccount_frame h2)
            · split at h
              · cases h
                exact frameOk_trans (touchAccount_frame h1) (touchAccount_frame h2)
              · cases h

theorem addIoTTx_err_frame {ctx : Ctx} {b : Block} {tx : IotTx} {b' : Block}
    (h : addIoTTx ctx b tx = .err b') : frameOk b b' := by
  unfold addIoTTx at h
  split at h
  · cases h
    exact frameOk_refl b
  · rename_i b1 h1
    split at h
    · cases h
      exact touchAccount_frame h1
    · rename_i b2 h2
      split at h
      · cases h
      · cases h

theorem addStakeTx_err_frame {ctx : Ctx} {b : Block} {tx : StakeTx} {b' : Block}
    (h : addStakeTx ctx b tx = .err b') : frameOk b b' := by
  unfold addStakeTx at h
  split at h
  · cases h
    exact frameOk_refl b
  · rename_i b1 h1
    split at h
    · cases h
    · rename_i acc h2
      split at h
      · cases h
        exact touchAccount_frame h1
      · split at h
        · cases h
          exact touchAccount_frame h1
        · cases h

theorem addAccTx_err_frame {ctx : Ctx} {b : Block} {tx : AccTx} {b' : Block}
    (h : addAccTx ctx b tx = .err b') : frameOk b b' := by
  unfold addAccTx at h
  split at h
  · cases h
    exact frameOk_refl b
  · cases h

theorem addTx_err_frame {ctx : Ctx} {b : Block} {tx : Tx} {b' : Block}
    (h : addTx ctx b tx = .err b') : frameOk b b' := by
  unfold addTx at h
  split at h
  · cases h
    exact frameOk_refl b
  · split at h
    · rename_i t
      split at h
      · exact addAccTx_err_frame h
      · cases h
        exact frameOk_refl b
    · rename_i t
      split at h
      · rename_i t2 heq
        exact addFundsTx_err_frame h
      · cases h
        exact frameOk_refl b
    · rename_i t
      split at h
      · unfold addConfigTx at h
        cases h
      · cases h
        exact frameOk_refl b
    · rename_i t
      split at h
      · exact addStakeTx_err_frame h
      · cases h
        exact frameOk_refl b
    · rename_i t
      split at h
      · cases h
        exact frameOk_refl b
      · cases h
        exact frameOk_refl b
    · rename_i t
      split at h
      · rename_i t2 heq
        exact addIoTTx_err_frame h
      · cases h
        exact frameOk_refl b

def stateC1 : AccMap := [(1, acctEx 1 100 5 false), (2, acctEx 2 0 0 false)]

def ctxC1 : Ctx := exampleCtx stateC1 [] 1 0

def txC1 : FundsTx :=
  { header := 0, amount := 1, fee := 1, txCnt := 0, fromA := 1, toA := 2,
    sig := 0, aggregated := false, data := none }

/-- C1: the txCnt-mismatch check in `addFundsTx` is disabled in the code
(block.go 288-294, the error return is commented out). A FundsTx whose
TxCnt (0) differs from the sender account's current txCnt (5) is
nevertheless added successfully through `addTx`: its hash is included in
the block and the sender's txCnt is incremented to 6 — the claimed hard
failure does not happen. -/
theorem c1_txcnt_mismatch_included :
    txC1.txCnt = 0 ∧
    (lookupA ctxC1.state txC1.fromA).map Account.txCnt = some 5 ∧
    addTx ctxC1 newBlock (.funds txC1) =
      .ok { stateCopy := [(1, acctEx 1 99 6 false), (2, acctEx 2 1 0 false)],
            accTxData := [], fundsTxData := [0], configTxData := [],
            stakeTxData := [], aggTxData := [], ioTTxData := [] } := by decide

def stateC2 : AccMap := [(1, acctEx 1 0 0 false), (2, acctEx 2 0 0 false)]

def ctxC2 : Ctx := exampleCtx stateC2 [] 1 0

def txC2 : FundsTx :=
  { header := 0, amount := 5, fee := 1, txCnt := 0, fromA := 1, toA := 2,
    sig := 0, aggregated := false, data := none }

def bErrC2 : Block := { newBlock with stateCopy := stateC2 }

/-- C2 counterexample: adding a FundsTx whose sender lacks the funds
makes `addTx` return an error, but by then both touched accounts have
already been copied into the block's `StateCopy`, so the block is not
left completely unchanged. -/
theorem c2_err_mutates_overlay :
    addTx ctxC2 newBlock (.funds txC2) = .err bErrC2 ∧ bErrC2 ≠ newBlock := by decide

/-- C2 (amended): when `addTx` returns an error no per-category hash
sequence changes and every overlay entry present before the call is still
found unchanged; the overlay can only have been extended at the end by
copy-on-read snapshots of accounts touched before the failure. -/
theorem c2_err_frame (ctx : Ctx) (b : Block) (tx : Tx) (b' : Block)
    (h : addTx ctx b tx = .err b') :
    seqEq b b' ∧ (∃ ext, b'.stateCopy = b.stateCopy ++ ext) ∧
    ∀ a acc, lookupA b.stateCopy a = some acc → lookupA b'.stateCopy a = some acc := by
  obtain ⟨hseq, ext, hext⟩ := addTx_err_frame h
  refine ⟨hseq, ⟨ext, hext⟩, ?_⟩
  intro a acc hl
  rw [hext]
  exact lookupA_append_of_some ext hl

/-- Witness for the amended C2 at a concrete failing add. -/
theorem c2_err_frame_witness :
    seqEq newBlock bErrC2 ∧ (∃ ext, bErrC2.stateCopy = newBlock.stateCopy ++ ext) ∧
    ∀ a acc, lookupA newBlock.stateCopy a = some acc →
      lookupA bErrC2.stateCopy a = some acc :=
  c2_err_frame ctxC2 newBlock (.funds txC2) bErrC2 (by decide)

def stateC5 : AccMap := [(1, acctEx 1 0 0 false), (2, acctEx 2 0 0 false)]

def ctxC5 : Ctx := exampleCtx stateC5 [] 0 0

def txC5 : IotTx :=
  { header := 0, txCnt := 0, fromA := 1, toA := 2, sig := 0, data := none, fee := 1 }

/-- C5: the insufficient-fee check in `addIoTTx` is disabled in the code
(block.go 227-233, the error return is commented out). An IotTx from a
non-root sender with balance 0 and fee 1 is added successfully: the fee
deduction wraps the sender's uint64 balance around to 2^64 - 1, the
txCnt is incremented and the hash is included — the claimed failure does
not happen. -/
theorem c5_insufficient_fee_included :
    ctxC5.rootAddrs txC5.fromA = false ∧
    (lookupA ctxC5.state txC5.fromA).map Account.balance = some 0 ∧ txC5.fee = 1 ∧
    addIoTTx ctxC5 newBlock txC5 =
      .ok { newBlock with
              stateCopy := [(1, acctEx 1 18446744073709551615 1 false),
                            (2, acctEx 2 0 0 false)],
              ioTTxData := [0] } := by decide

def ctxC6 : Ctx := exampleCtx [] [] 0 10

def acctC6 : Account := acctEx 5 11 0 false

def bC6 : Block := { newBlock with stateCopy := [(5, acctC6)] }

def txC6 : StakeTx :=
  { fee := 1, isStaking := true, account := 5, commitmentKey := 9, sig := 0 }

/-- C6: `addStakeTx` rejects with `Fee + Staking_minimum >= Balance`
(block.go 571), so a non-root account whose balance equals exactly
`fee + Staking_minimum` (11 = 1 + 10) is rejected even though neither of
the claimed rejection conditions holds (the balance is not strictly
below `fee + Staking_minimum` and the staking flag differs from the
requested value). -/
theorem c6_exact_boundary_rejected :
    acctC6.balance = txC6.fee + ctxC6.params.stakingMinimum ∧
    acctC6.isStaking ≠ txC6.isStaking ∧
    addStakeTx ctxC6 bC6 txC6 = .err bC6 := by decide

theorem gobSlice_of_ne (d : Option (List Nat)) (h : d ≠ some []) : gobSlice d = d := by
  match d with
  | none => rfl
  | some [] => exact absurd rfl h
  | some (x :: l) => rfl

def fundsAggC3 : FundsTx :=
  { header := 0, amount := 1, fee := 1, txCnt := 0, fromA := 1, toA := 2,
    sig := 3, aggregated := true, data := none }

/-- C3 counterexample: `FundsTx.Encode` does not serialize the
`Aggregated` flag (the struct literal of `fundstx.go` 84-93 omits it), so
decoding the encoding of a FundsTx whose `Aggregated` flag is true does
not yield the original transaction. -/
theorem c3_aggregated_not_restored :
    fundsAggC3.aggregated = true ∧
    FundsTx.decode (FundsTx.encode fundsAggC3) ≠ fundsAggC3 := by decide

/-- C3 (amended): for the variants whose codecs are in the sources,
decode after encode restores every encoded field: an `IotTx` round-trips
to itself, while a `FundsTx` round-trips to itself with the `Aggregated`
flag reset to `false` (the flag is never encoded); in particular the
round-trip law holds exactly for funds transactions that are not marked
aggregated. Data slices are restricted to gob-normal values (gob
collapses an empty non-nil slice to nil). -/
theorem c3_roundtrip_amended :
    (∀ tx : FundsTx, tx.data ≠ some [] →
      FundsTx.decode (FundsTx.encode tx) = { tx with aggregated := false }) ∧
    (∀ tx : IotTx, tx.data ≠ some [] → IotTx.decode (IotTx.encode tx) = tx) := by
  constructor
  · intro tx hd
    cases tx with
    | mk hh aa ff tc fr ta sg ag dt =>
      simp [FundsTx.encode, FundsTx.decode, gobSlice_of_ne _ hd]
  · intro tx hd
    cases tx with
    | mk hh tc fr ta sg dt ff =>
      simp [IotTx.encode, IotTx.decode, gobSlice_of_ne _ hd]

def fundsPlainC3 : FundsTx :=
  { header := 0, amount := 1, fee := 1, txCnt := 0, fromA := 1, toA := 2,
    sig := 3, aggregated := false, data := some [7] }

def iotC3 : IotTx :=
  { header := 1, txCnt := 2, fromA := 3, toA := 4, sig := 5, data := some [6], fee := 7 }

/-- Witness for the amended C3 at concrete transactions. -/
theorem c3_roundtrip_witness :
    FundsTx.decode (FundsTx.encode fundsPlainC3) = { fundsPlainC3 with aggregated := false } ∧
    IotTx.decode (IotTx.encode iotC3) = iotC3 :=
  ⟨c3_roundtrip_amended.1 fundsPlainC3 (by decide),
   c3_roundtrip_amended.2 iotC3 (by decide)⟩

def aggBadC4 : AggTx :=
  { amount := 42, fee := 1, fromList := [], toList := [], aggregatedTxSlice := [] }

def envC4 : AggFetchEnv :=
  { arrives := fun _ => true, responses := fun _ => aggBadC4, hashA := fun t => t.amount }

/-- C4: in the network branch of `fetchAggTxData` the retry guard is
`cnt < 2`, allowing a single retry (two receives), not three tries, and
the error send after the `goto` is unreachable (block.go 913-917): when
the peer persistently answers the request for hash 7 with a transaction
hashing to 42, the mismatched transaction is accepted into the block
data and no error is raised — the claimed three-try-then-fail behaviour
does not happen. -/
theorem c4_mismatch_accepted_without_error :
    envC4.hashA (envC4.responses 1) ≠ 7 ∧ envC4.hashA (envC4.responses 2) ≠ 7 ∧
    fetchAggTxNet envC4 7 = .accepted aggBadC4 := by decide

def ctxC7 : Ctx := exampleCtx [] [] 0 0

def fTxC7a : FundsTx :=
  { header := 0, amount := 5, fee := 1, txCnt := 0, fromA := 1, toA := 2,
    sig := 0, aggregated := false, data := none }

def fTxC7b : FundsTx :=
  { header := 0, amount := 7, fee := 1, txCnt := 1, fromA := 1, toA := 2,
    sig := 0, aggregated := false, data := none }

def aggResC7 : AggTx :=
  { amount := 12, fee := 1, fromList := [1, 1], toList := [2, 2],
    aggregatedTxSlice := [0, 1] }

/-- C7 counterexample: for two funds transactions with the same sender
and the same receiver the numbers of distinct senders and distinct
receivers are equal (1 = 1); the code's truncation (block.go 438-444)
fires only on strict inequality, so the constructed AggTx keeps BOTH the
full sender list and the full receiver list — not the claimed single
common receiver. -/
theorem c7_equal_counts_keep_both :
    ([fTxC7a, fTxC7b].map (fun t => t.fromA)).dedup.length =
      ([fTxC7a, fTxC7b].map (fun t => t.toA)).dedup.length ∧
    aggregateFundsTransactions ctxC7 [fTxC7a, fTxC7b] newBlock =
      .aggregated aggResC7 { newBlock with aggTxData := [12] } ∧
    aggResC7.toList.length ≠ 1 ∧ aggResC7.fromList.length ≠ 1 := by decide

/-- C7 (amended): for a group of two or more funds transactions the
aggregator constructs an AggTx whose member-hash list covers the whole
group; the sender slice is truncated to its first element exactly when
there are strictly fewer distinct senders than distinct receivers, the
receiver slice exactly when strictly more; with equal counts both full
slices are kept; at least one of the two slices is always kept in full,
so never are both deduplicated. -/
theorem c7_dedup_rule (ctx : Ctx) (b : Block) (t1 t2 : FundsTx) (rest : List FundsTx) :
    ∃ agg b2,
      aggregateFundsTransactions ctx (t1 :: t2 :: rest) b = .aggregated agg b2 ∧
      agg.aggregatedTxSlice = (t1 :: t2 :: rest).map (fun t => fundsTxHashVal ctx t) ∧
      (((t1 :: t2 :: rest).map (fun t => t.fromA)).dedup.length <
          ((t1 :: t2 :: rest).map (fun t => t.toA)).dedup.length →
        agg.fromList = ((t1 :: t2 :: rest).map (fun t => t.fromA)).take 1 ∧
        agg.toList = (t1 :: t2 :: rest).map (fun t => t.toA)) ∧
      (((t1 :: t2 :: rest).map (fun t => t.toA)).dedup.length <
          ((t1 :: t2 :: rest).map (fun t => t.fromA)).dedup.length →
        agg.toList = ((t1 :: t2 :: rest).map (fun t => t.toA)).take 1 ∧
        agg.fromList = (t1 :: t2 :: rest).map (fun t => t.fromA)) ∧
      (((t1 :: t2 :: rest).map (fun t => t.fromA)).dedup.length =
          ((t1 :: t2 :: rest).map (fun t => t.toA)).dedup.length →
        agg.fromList = (t1 :: t2 :: rest).map (fun t => t.fromA) ∧
        agg.toList = (t1 :: t2 :: rest).map (fun t => t.toA)) ∧
      (agg.fromList = (t1 :: t2 :: rest).map (fun t => t.fromA) ∨
       agg.toList = (t1 :: t2 :: rest).map (fun t => t.toA)) := by
  refine ⟨_, _, rfl, rfl, ?_, ?_, ?_, ?_⟩
  · intro h
    simp only [List.map_cons] at h
    exact ⟨by simp [h], by simp [Nat.le_of_lt h]⟩
  · intro h
    simp only [List.map_cons] at h
    exact ⟨by simp [h], by simp [Nat.le_of_lt h]⟩
  · intro h
    simp only [List.map_cons] at h
    exact ⟨by simp [h.ge], by simp [h.le]⟩
  · by_cases h : ((t1 :: t2 :: rest).map (fun t => t.fromA)).dedup.length <
      ((t1 :: t2 :: rest).map (fun t => t.toA)).dedup.length
    · simp only [List.map_cons] at h
      exact Or.inr (by simp [Nat.le_of_lt h])
    · simp only [List.map_cons] at h
      exact Or.inl (by simp [Nat.le_of_not_lt h])

def fTxC7c : FundsTx :=
  { header := 0, amount := 3, fee := 1, txCnt := 2, fromA := 1, toA := 3,
    sig := 0, aggregated := false, data := none }

/-- Witness for the amended C7 at a concrete two-element group sharing a
sender. -/
theorem c7_dedup_rule_witness :
    ∃ agg b2,
      aggregateFundsTransactions ctxC7 (fTxC7a :: fTxC7c :: []) newBlock =
        .aggregated agg b2 ∧
      agg.aggregatedTxSlice =
        (fTxC7a :: fTxC7c :: []).map (fun t => fundsTxHashVal ctxC7 t) ∧
      (((fTxC7a :: fTxC7c :: []).map (fun t => t.fromA)).dedup.length <
          ((fTxC7a :: fTxC7c :: []).map (fun t => t.toA)).dedup.length →
        agg.fromList = ((fTxC7a :: fTxC7c :: []).map (fun t => t.fromA)).take 1 ∧
        agg.toList = (fTxC7a :: fTxC7c :: []).map (fun t => t.toA)) ∧
      (((fTxC7a :: fTxC7c :: []).map (fun t => t.toA)).dedup.length <
          ((fTxC7a :: fTxC7c :: []).map (fun t => t.fromA)).dedup.length →
        agg.toList = ((fTxC7a :: fTxC7c :: []).map (fun t => t.toA)).take 1 ∧
        agg.fromList = (fTxC7a :: fTxC7c :: []).map (fun t => t.fromA)) ∧
      (((fTxC7a :: fTxC7c :: []).map (fun t => t.fromA)).dedup.length =
          ((fTxC7a :: fTxC7c :: []).map (fun t => t.toA)).dedup.length →
        agg.fromList = (fTxC7a :: fTxC7c :: []).map (fun t => t.fromA) ∧
        agg.toList = (fTxC7a :: fTxC7c :: []).map (fun t => t.toA)) ∧
      (agg.fromList = (fTxC7a :: fTxC7c :: []).map (fun t => t.fromA) ∨
       agg.toList = (fTxC7a :: fTxC7c :: []).map (fun t => t.toA)) :=
  c7_dedup_rule ctxC7 newBlock fTxC7a fTxC7c []

def acctC8from : Account := acctEx 1 10 0 false

def acctC8to : Account := acctEx 2 18446744073709551615 0 false

def ctxC8 : Ctx := exampleCtx [] [1] 0 0

def bC8 : Block := { newBlock with stateCopy := [(1, acctC8from), (2, acctC8to)] }

def txC8 : FundsTx :=
  { header := 0, amount := 1, fee := 0, txCnt := 0, fromA := 1, toA := 2,
    sig := 0, aggregated := false, data := none }

/-- C8 counterexample: the overflow guard of `addFundsTx` (block.go 297)
adds receiver balance and amount in wrapping uint64 arithmetic. With
receiver balance 2^64 - 1 and amount 1 the exact sum 2^64 exceeds
`MAX_MONEY`, yet the wrapped sum is 0, the guard passes, and the add
succeeds, wrapping the receiver's balance to 0 — the claimed exact
integer-arithmetic rejection does not happen. -/
theorem c8_wrapped_sum_not_caught :
    acctC8to.balance + txC8.amount > ctxC8.maxMoney ∧
    addFundsTx ctxC8 bC8 txC8 =
      .ok { bC8 with
              stateCopy := [(1, acctEx 1 9 1 false), (2, acctEx 2 0 0 false)],
              fundsTxData := [0] } := by decide

/-- C8 (amended): the receiver-overflow guard of `addFundsTx` compares
the wrapped uint64 sum `(balance + amount) % 2^64` against `MAX_MONEY`:
when the sender and receiver are already in the overlay, the sender is a
root account and the tx data is nil, the add fails (with the block's
balances untouched) precisely when the wrapped sum exceeds `MAX_MONEY`,
and on success the receiver's new balance equals the wrapped sum, hence
is at most `MAX_MONEY`. The exact-arithmetic form of the claim fails
when the addition wraps. -/
theorem c8_overflow_check_is_wrapped (ctx : Ctx) (b : Block) (tx : FundsTx)
    (accFrom accTo : Account)
    (hf : lookupA b.stateCopy tx.fromA = some accFrom)
    (ht : lookupA b.stateCopy tx.toA = some accTo)
    (hroot : ctx.rootAddrs tx.fromA = true)
    (hdata : tx.data = none) :
    (add64 accTo.balance tx.amount > ctx.maxMoney →
      addFundsTx ctx b tx = .err b) ∧
    (add64 accTo.balance tx.amount ≤ ctx.maxMoney →
      ∃ b2, addFundsTx ctx b tx = .ok b2 ∧
        (tx.fromA ≠ tx.toA →
          ∃ acc2, lookupA b2.stateCopy tx.toA = some acc2 ∧
            acc2.balance = add64 accTo.balance tx.amount ∧
            acc2.balance ≤ ctx.maxMoney)) := by
  have hrootc : ¬ (ctx.rootAddrs tx.fromA = false ∧
      add64 tx.amount tx.fee > accFrom.balance) := by
    simp [hroot]
  have hvm : ¬ ((tx.data.isSome = true) ∧ (accTo.contract.isSome = true) ∧
      ctx.vmExec accTo tx = false) := by
    simp [hdata]
  constructor
  · intro hover
    simp only [addFundsTx, touchAccount_of_some hf, touchAccount_of_some ht, hf, ht,
      if_neg hrootc, if_pos hover]
  · intro hover
    have hnover : ¬ add64 accTo.balance tx.amount > ctx.maxMoney := by omega
    refine ⟨{ b with
        stateCopy := updA (updA b.stateCopy tx.fromA (fundsSenderUpd tx)) tx.toA
          (fundsReceiverUpd tx),
        fundsTxData := b.fundsTxData ++ [fundsTxHashVal ctx tx] }, ?_, ?_⟩
    · simp only [addFundsTx, touchAccount_of_some hf, touchAccount_of_some ht, hf, ht,
        if_neg hrootc, if_neg hnover, if_neg hvm]
    · intro hne
      have hne2 : tx.toA ≠ tx.fromA := fun hc => hne hc.symm
      refine ⟨{ accTo with balance := add64 accTo.balance tx.amount }, ?_, rfl, hover⟩
      show lookupA (updA (updA b.stateCopy tx.fromA (fundsSenderUpd tx)) tx.toA
        (fundsReceiverUpd tx)) tx.toA = _
      rw [lookupA_updA_self, lookupA_updA_ne _ _ hne2, ht]
      rfl

/-- Witness for the amended C8 at a concrete add with a root sender. -/
theorem c8_overflow_check_witness :
    (add64 acctC8to.balance txC8.amount > ctxC8.maxMoney →
      addFundsTx ctxC8 bC8 txC8 = .err bC8) ∧
    (add64 acctC8to.balance txC8.amount ≤ ctxC8.maxMoney →
      ∃ b2, addFundsTx ctxC8 bC8 txC8 = .ok b2 ∧
        (txC8.fromA ≠ txC8.toA →
          ∃ acc2, lookupA b2.stateCopy txC8.toA = some acc2 ∧
            acc2.balance = add64 acctC8to.balance txC8.amount ∧
            acc2.balance ≤ ctxC8.maxMoney)) :=
  c8_overflow_check_is_wrapped ctxC8 bC8 txC8 acctC8from acctC8to
    (by decide) (by decide) (by decide) rfl

/-- C9: when sender and receiver resolve to accounts whose recomputed
address hashes coincide, `verifyFundsTx` (verification.go 320-354)
returns false — the final conjunct `tx.From != tx.To` is evaluated on
the overwritten hash fields — even when the Ed25519 signature itself
verifies. -/
theorem c9_self_transfer_never_verifies (ctx : Ctx) (tx : FundsTx)
    (accFrom accTo : Account)
    (hf : lookupA ctx.state tx.fromA = some accFrom)
    (ht : lookupA ctx.state tx.toA = some accTo)
    (hsame : ctx.hashContent accFrom.address = ctx.hashContent accTo.address)
    (hsig : ctx.edVerify accFrom.address (fundsTxHashVal ctx tx) tx.sig = true) :
    (verifyFundsTx ctx tx).1 = false := by
  by_cases hamt : tx.amount = 0 ∨ tx.amount > ctx.maxMoney
  · simp [verifyFundsTx, hamt]
  · simp only [verifyFundsTx, if_neg hamt, hf, ht]
    simp [hsame]

def ctxC9 : Ctx :=
  { exampleCtx [(1, acctEx 1 0 0 false), (2, acctEx 2 0 0 false)] [] 0 0 with
      hashContent := fun _ => 7 }

def txC9 : FundsTx :=
  { header := 0, amount := 1, fee := 1, txCnt := 0, fromA := 1, toA := 2,
    sig := 0, aggregated := false, data := none }

/-- Witness for C9 at a concrete self-resolving transfer with an
accepting signature oracle. -/
theorem c9_self_transfer_witness : (verifyFundsTx ctxC9 txC9).1 = false :=
  c9_self_transfer_never_verifies ctxC9 txC9 (acctEx 1 0 0 false) (acctEx 2 0 0 false)
    (by decide) (by decide) rfl rfl

/-- C10: when the staking account is absent from the global state,
`verifyStakeTx` (verification.go 282-288) creates a fresh account (zero
balance, not staking, empty commitment key) and writes it into the
global state instead of failing — independently of the signature
verdict — and overwrites the transaction's Account field with the
recomputed address hash (line 295); the signature is then checked
against the fresh account's address. -/
theorem c10_stake_verify_writes_state (ctx : Ctx) (tx : StakeTx)
    (h : lookupA ctx.state tx.account = none) :
    lookupA (verifyStakeTx ctx tx).state tx.account = some (newAccount tx.account) ∧
    (newAccount tx.account).balance = 0 ∧
    (newAccount tx.account).isStaking = false ∧
    (newAccount tx.account).commitmentKey = 0 ∧
    (verifyStakeTx ctx tx).tx.account = ctx.hashContent tx.account ∧
    (verifyStakeTx ctx tx).verified =
      ctx.edVerify tx.account
        (ctx.stakeTxHash (verifyStakeTx ctx tx).tx) tx.sig := by
  simp [verifyStakeTx, h, newAccount, lookupA_setA_self]

def ctxC10 : Ctx := exampleCtx [] [] 0 0

def txC10 : StakeTx :=
  { fee := 1, isStaking := true, account := 3, commitmentKey := 4, sig := 5 }

/-- Witness for C10 at a concrete stake tx over an empty global state. -/
theorem c10_stake_verify_witness :
    lookupA (verifyStakeTx ctxC10 txC10).state txC10.account =
      some (newAccount txC10.account) ∧
    (newAccount txC10.account).balance = 0 ∧
    (newAccount txC10.account).isStaking = false ∧
    (newAccount txC10.account).commitmentKey = 0 ∧
    (verifyStakeTx ctxC10 txC10).tx.account = ctxC10.hashContent txC10.account ∧
    (verifyStakeTx ctxC10 txC10).verified =
      ctxC10.edVerify txC10.account
        (ctxC10.stakeTxHash (verifyStakeTx ctxC10 txC10).tx) txC10.sig :=
  c10_stake_verify_writes_state ctxC10 txC10 (by decide)
